import Mathlib

/-!
Verification of the corosio asynchronous I/O runtime core.

This file gives a shallow embedding, in Lean, of the parts of the
corosio/capy sources that the specification's claims are about:

* the type-indexed service registry (`boost/capy/service_provider.hpp`);
* the kqueue scheduler event loop (`kqueue_scheduler::run` / `do_one`);
* the I/O operation state machine: registration, the completion versus
  cancellation race on the `registered` atomic, the keep-alive reference,
  and the completion handler's error mapping (`detail/kqueue/op.hpp`,
  `detail/select/*.cpp`);
* the coroutine frame allocator mixin (`capy/detail/frame_pool.hpp`);
* the `consuming_buffers` adapter (`boost/corosio/consuming_buffers.hpp`).

C++ type indexes are modelled as natural numbers, pointers as natural
number identities, and the atomics of one op as explicit state threaded
through the competing code paths (any interleaving of atomic accesses to
a single location is a sequence of those accesses).
-/

namespace Corosio

/-! ## Service registry (`boost/capy/service_provider.hpp`)

A registered service carries two type indexes: `t0` is the concrete type
`typeid(T)` and `t1` is `typeid(T::key_type)` when `T` declares a
`key_type`, otherwise `t1 = t0`.  The provider keeps a singly linked list
with `head_` pointing at the most recently registered service. -/

structure ServiceEntry where
  sid : Nat
  t0 : Nat
  t1 : Nat
deriving DecidableEq, Repr

/-- `service_provider::find_impl`: linear scan from `head_`, matching an
entry whose concrete type or key type equals the requested index. -/
def find_impl (ti : Nat) : List ServiceEntry → Option ServiceEntry
  | [] => none
  | e :: rest => if e.t0 = ti ∨ e.t1 = ti then some e else find_impl ti rest

/-- Result of `service_provider::make_service`. `alreadyExists` stands for
the thrown `std::invalid_argument("service already exists")`. -/
inductive MakeResult where
  | made (e : ServiceEntry) (reg : List ServiceEntry)
  | alreadyExists
deriving DecidableEq, Repr

/-- The `if constexpr(get_key<T>::value)` presence check on the key type:
false when `T` has no `key_type`. -/
def keyConflict (key : Option Nat) (reg : List ServiceEntry) : Bool :=
  match key with
  | some k => (find_impl k reg).isSome
  | none => false

/-- `service_provider::make_service<T>`: under the lock, fail if the
concrete type or (when present) the key type is already registered; then
construct unlocked — `during` models entries that other threads register
while the lock is released — then re-lock and repeat both checks before
linking the new service at `head_`. -/
def make_service (t : Nat) (key : Option Nat) (newId : Nat)
    (reg during : List ServiceEntry) : MakeResult :=
  if (find_impl t reg).isSome then .alreadyExists
  else if keyConflict key reg then .alreadyExists
  else if (find_impl t (during ++ reg)).isSome then .alreadyExists
  else if keyConflict key (during ++ reg) then .alreadyExists
  else .made ⟨newId, t, key.getD t⟩ (⟨newId, t, key.getD t⟩ :: (during ++ reg))

/-- `service_provider::use_service<T>`: return the existing service when
one is found under `typeid(T)`, otherwise construct one and link it at
`head_`, indexed under the concrete type and the key type. -/
def use_service (t : Nat) (key : Option Nat) (newId : Nat)
    (reg : List ServiceEntry) : ServiceEntry × List ServiceEntry :=
  match find_impl t reg with
  | some e => (e, reg)
  | none =>
    let e : ServiceEntry := ⟨newId, t, key.getD t⟩
    (e, e :: reg)

/-! ## Service provider teardown (`service_provider::~service_provider`)

The destructor walks the list from `head_` (most recently registered
first) and, for each node in turn, calls `shutdown()` and then
`delete`s the node before moving to the next. -/

inductive TeardownEvent where
  | shut (sid : Nat)
  | destroy (sid : Nat)
deriving DecidableEq, Repr

/-- The sequence of events produced by `~service_provider` on the list
hanging off `head_` (most recently registered service first). -/
def teardownTrace : List ServiceEntry → List TeardownEvent
  | [] => []
  | e :: rest => .shut e.sid :: .destroy e.sid :: teardownTrace rest

/-- The service ids in the order their `shutdown()` runs. -/
def shutOrder (tr : List TeardownEvent) : List Nat :=
  tr.filterMap fun e => match e with | .shut s => some s | .destroy _ => none

/-- The service ids in the order their destructors run. -/
def destroyOrder (tr : List TeardownEvent) : List Nat :=
  tr.filterMap fun e => match e with | .destroy s => some s | .shut _ => none

/-- Whether no `shutdown()` call happens after the first destruction,
i.e. whether the teardown is two-phase (all shutdowns, then all
destructions). -/
def noShutAfterDestroy : List TeardownEvent → Bool
  | [] => true
  | .shut _ :: rest => noShutAfterDestroy rest
  | .destroy _ :: rest => rest.all fun e => match e with
      | .shut _ => false
      | .destroy _ => true

/-- Registering services `ids` in order (each `make`/`use` links the new
service at `head_`), yielding the list hanging off `head_`. -/
def registerAll (ids : List Nat) : List ServiceEntry :=
  ids.foldl (fun reg i => ⟨i, i, i⟩ :: reg) []

/-- The claim of C5 at a given `head_` list: LIFO traversal, and every
service's `shutdown()` runs before any service object is destroyed. -/
def c5ClaimAt (heads : List ServiceEntry) : Prop :=
  shutOrder (teardownTrace heads) = heads.map (·.sid) ∧
  noShutAfterDestroy (teardownTrace heads) = true

theorem find_impl_mem_isSome (t : Nat) (reg : List ServiceEntry)
    (e : ServiceEntry) (hmem : e ∈ reg) (hmatch : e.t0 = t ∨ e.t1 = t) :
    (find_impl t reg).isSome := by
  induction reg with
  | nil => cases hmem
  | cons a rest ih =>
    simp only [find_impl]
    by_cases h : a.t0 = t ∨ a.t1 = t
    · simp [h]
    · simp only [if_neg h]
      rcases List.mem_cons.mp hmem with rfl | hmem2
      · exact absurd hmatch h
      · exact ih hmem2

theorem find_impl_some {t : Nat} {reg : List ServiceEntry} {e : ServiceEntry}
    (h : find_impl t reg = some e) : e ∈ reg ∧ (e.t0 = t ∨ e.t1 = t) := by
  induction reg with
  | nil => simp [find_impl] at h
  | cons a rest ih =>
    simp only [find_impl] at h
    by_cases hm : a.t0 = t ∨ a.t1 = t
    · rw [if_pos hm] at h
      cases h
      exact ⟨List.mem_cons_self _ _, hm⟩
    · rw [if_neg hm] at h
      have := ih h
      exact ⟨List.mem_cons_of_mem _ this.1, this.2⟩

theorem use_service_result_mem (t : Nat) (key : Option Nat) (newId : Nat)
    (reg : List ServiceEntry) :
    ∃ e ∈ (use_service t key newId reg).2, e.t0 = t ∨ e.t1 = t := by
  unfold use_service
  cases hf : find_impl t reg with
  | some e =>
    have h := find_impl_some hf
    exact ⟨e, h.1, h.2⟩
  | none => exact ⟨⟨newId, t, key.getD t⟩, by simp, Or.inl rfl⟩

theorem make_service_concrete_conflict (t : Nat) (key : Option Nat)
    (newId : Nat) (reg during : List ServiceEntry)
    (h : (find_impl t (during ++ reg)).isSome) :
    make_service t key newId reg during = .alreadyExists := by
  unfold make_service
  by_cases h1 : (find_impl t reg).isSome
  · rw [if_pos h1]
  · rw [if_neg h1]
    by_cases h2 : keyConflict key reg
    · rw [if_pos h2]
    · rw [if_neg h2, if_pos h]

theorem make_service_key_conflict (t k : Nat) (newId : Nat)
    (reg during : List ServiceEntry)
    (h : (find_impl k (during ++ reg)).isSome) :
    make_service t (some k) newId reg during = .alreadyExists := by
  unfold make_service
  by_cases h1 : (find_impl t reg).isSome
  · rw [if_pos h1]
  · rw [if_neg h1]
    by_cases h2 : keyConflict (some k) reg
    · rw [if_pos h2]
    · rw [if_neg h2]
      by_cases h3 : (find_impl t (during ++ reg)).isSome
      · rw [if_pos h3]
      · rw [if_neg h3, if_pos (by simpa [keyConflict] using h)]

theorem make_service_made {t : Nat} {key : Option Nat} {newId : Nat}
    {reg during : List ServiceEntry} {e : ServiceEntry}
    {reg2 : List ServiceEntry}
    (h : make_service t key newId reg during = .made e reg2) :
    e.t0 = t ∧ reg2 = e :: (during ++ reg) := by
  unfold make_service at h
  split_ifs at h
  cases h
  exact ⟨rfl, rfl⟩

/-- C6. `make_service<T>` fails with already-exists whenever a service is
already registered under `T`'s concrete type or under `T::key_type`; the
presence check runs both before construction (on `reg`) and again after
construction (also catching entries in `during` registered concurrently
while the lock was released); in particular `make` fails after any prior
`make<T>` or `use<T>` that materialized `T`, and when some registered
service has `key_type` equal to `T` (an entry with `t1 = T`). -/
theorem c6_make_service_uniqueness :
    (∀ t key newId reg during (e : ServiceEntry), e ∈ during ++ reg →
        (e.t0 = t ∨ e.t1 = t) →
        make_service t key newId reg during = .alreadyExists)
    ∧ (∀ t k newId reg during (e : ServiceEntry), e ∈ during ++ reg →
        (e.t0 = k ∨ e.t1 = k) →
        make_service t (some k) newId reg during = .alreadyExists)
    ∧ (∀ t key key2 id1 id2 reg during2,
        make_service t key2 id2 ((use_service t key id1 reg).2) during2
          = .alreadyExists)
    ∧ (∀ t key newId reg during e reg2 key2 id2 during2,
        make_service t key newId reg during = .made e reg2 →
        make_service t key2 id2 reg2 during2 = .alreadyExists) := by
  refine ⟨?_, ?_, ?_, ?_⟩
  · intro t key newId reg during e hmem hm
    exact make_service_concrete_conflict t key newId reg during
      (find_impl_mem_isSome t _ e hmem hm)
  · intro t k newId reg during e hmem hm
    exact make_service_key_conflict t k newId reg during
      (find_impl_mem_isSome k _ e hmem hm)
  · intro t key key2 id1 id2 reg during2
    obtain ⟨e, hmem, hm⟩ := use_service_result_mem t key id1 reg
    exact make_service_concrete_conflict t key2 id2 _ during2
      (find_impl_mem_isSome t _ e (List.mem_append_right _ hmem) hm)
  · intro t key newId reg during e reg2 key2 id2 during2 h
    obtain ⟨ht, hreg⟩ := make_service_made h
    subst hreg
    exact make_service_concrete_conflict t key2 id2 _ during2
      (find_impl_mem_isSome t _ e (List.mem_append_right _ (List.mem_cons_self _ _))
        (Or.inl ht))

theorem registerAll_map (ids : List Nat) :
    (registerAll ids).map (·.sid) = ids.reverse := by
  suffices h : ∀ acc : List ServiceEntry,
      ((ids.foldl (fun reg i => ⟨i, i, i⟩ :: reg) acc).map (·.sid))
        = ids.reverse ++ acc.map (·.sid) by
    simpa using h []
  induction ids with
  | nil => intro acc; simp
  | cons a rest ih =>
    intro acc
    simp only [List.foldl_cons, List.reverse_cons, ih, List.map_cons,
      List.append_assoc, List.singleton_append]

theorem shutOrder_teardown (heads : List ServiceEntry) :
    shutOrder (teardownTrace heads) = heads.map (·.sid) := by
  induction heads with
  | nil => rfl
  | cons e rest ih => simp [teardownTrace, shutOrder, List.filterMap_cons] at ih ⊢; exact ih

theorem destroyOrder_teardown (heads : List ServiceEntry) :
    destroyOrder (teardownTrace heads) = heads.map (·.sid) := by
  induction heads with
  | nil => rfl
  | cons e rest ih => simp [teardownTrace, destroyOrder, List.filterMap_cons] at ih ⊢; exact ih

theorem shut_destroy_sublist (heads : List ServiceEntry) (e : ServiceEntry)
    (hmem : e ∈ heads) :
    [TeardownEvent.shut e.sid, TeardownEvent.destroy e.sid].Sublist
      (teardownTrace heads) := by
  induction heads with
  | nil => cases hmem
  | cons a rest ih =>
    rcases List.mem_cons.mp hmem with rfl | hmem2
    · exact (List.nil_sublist _).cons₂ _ |>.cons₂ _
    · exact ((ih hmem2).cons _).cons _

/-- C5 counterexample: with two registered services (service 1 registered
first, then service 2, so `head_` is `[2, 1]`), the destructor's trace is
shut 2, destroy 2, shut 1, destroy 1 — service 2 is destroyed before
service 1's `shutdown()` is called, so it is not the case that every
service's `shutdown()` runs before any service object is destroyed. -/
theorem c5_shutdown_counterexample :
    ¬ c5ClaimAt [⟨2, 0, 0⟩, ⟨1, 0, 0⟩] := by
  unfold c5ClaimAt
  decide

/-- C5 amended: teardown of the service provider traverses services in
LIFO order of registration (the `head_` list is the reverse of the
registration order and both the shutdown calls and the destructions
follow that list order), and each service's `shutdown()` is called
immediately before that same service is destroyed — but the phases are
interleaved per service, not "all shutdowns before any destruction". -/
theorem c5_teardown_lifo :
    (∀ ids : List Nat, (registerAll ids).map (·.sid) = ids.reverse)
    ∧ (∀ heads : List ServiceEntry,
        shutOrder (teardownTrace heads) = heads.map (·.sid))
    ∧ (∀ heads : List ServiceEntry,
        destroyOrder (teardownTrace heads) = heads.map (·.sid))
    ∧ (∀ (heads : List ServiceEntry) (e : ServiceEntry), e ∈ heads →
        [TeardownEvent.shut e.sid, TeardownEvent.destroy e.sid].Sublist
          (teardownTrace heads)) :=
  ⟨registerAll_map, shutOrder_teardown, destroyOrder_teardown,
    shut_destroy_sublist⟩

/-- Witness for C5 amended at the concrete two-service registry. -/
theorem c5_teardown_lifo_witness :
    (registerAll [1, 2]).map (·.sid) = [2, 1]
    ∧ shutOrder (teardownTrace [⟨2, 0, 0⟩, ⟨1, 0, 0⟩]) = [2, 1]
    ∧ [TeardownEvent.shut 1, TeardownEvent.destroy 1].Sublist
        (teardownTrace [⟨2, 0, 0⟩, ⟨1, 0, 0⟩]) :=
  ⟨c5_teardown_lifo.1 [1, 2], c5_teardown_lifo.2.1 [⟨2, 0, 0⟩, ⟨1, 0, 0⟩],
    c5_teardown_lifo.2.2.2 [⟨2, 0, 0⟩, ⟨1, 0, 0⟩] ⟨1, 0, 0⟩ (by decide)⟩

/-! ## Op completion handler (`detail/kqueue/op.hpp`)

`kqueue_op::operator()` maps the recorded `(cancelled, errn, bytes)` of a
settled op to the error written through `ec_out`.  For read ops
`is_read_operation()` returns `!empty_buffer_read`, so a zero-byte
completion reports `eof` only when the `empty_buffer_read` flag was not
set at start. -/

inductive OutErr where
  | ok
  | canceled
  | os (errn : Nat)
  | eof
deriving DecidableEq, Repr

/-- The error-mapping steps of `kqueue_op::operator()`: cancelled wins,
then a non-zero saved errno, then the eof rule for read operations. -/
def kqueue_op_out_error (cancelled : Bool) (errn : Nat) (is_read_op : Bool)
    (bytes : Nat) : OutErr :=
  if cancelled then .canceled
  else if errn ≠ 0 then .os errn
  else if is_read_op ∧ bytes = 0 then .eof
  else .ok

/-- The state `kqueue_socket_impl::read_some` leaves in the read op when
it posts the op from the try-first path. -/
structure ReadCompletion where
  errn : Nat
  bytes : Nat
  empty_buffer_read : Bool
deriving DecidableEq, Repr

/-- Outcome of the non-blocking `readv` attempt. `bytes n` is a return of
`n ≥ 0` (POSIX: at most the total buffer length, hence `0` when the iovec
lengths sum to zero); `eagain` is `EAGAIN`/`EWOULDBLOCK`; `fail e` is any
other errno. -/
inductive ReadvResult where
  | bytes (n : Nat)
  | eagain
  | fail (e : Nat)
deriving DecidableEq, Repr

/-- `kqueue_socket_impl::read_some`, try-first portion.  `bufs` is the
sequence of buffer sizes delivered by `io_buffer_param::copy_to` (which
copies every buffer, zero-sized ones included, up to `max_buffers = 16`).
Returns the completion posted to the scheduler, or `none` when the op
registered with the reactor instead (the EAGAIN path). -/
def read_some_try (bufs : List Nat) (res : ReadvResult) :
    Option ReadCompletion :=
  let bufs16 := bufs.take 16
  if bufs16.length = 0 ∨ (bufs16.length = 1 ∧ bufs16.headD 1 = 0) then
    some ⟨0, 0, true⟩
  else match res with
    | .bytes n => some ⟨0, n, false⟩
    | .eagain => none
    | .fail e => some ⟨e, 0, false⟩

/-- The error the awaiting coroutine observes for a read completion with
no cancellation, per `kqueue_op::operator()` and
`kqueue_read_op::is_read_operation`. -/
def read_out_error (c : ReadCompletion) : OutErr :=
  kqueue_op_out_error false c.errn (!c.empty_buffer_read) c.bytes

/-- C7, behavior at the failing input.  A buffer sequence of two
zero-length buffers is a zero-length buffer sequence, yet `read_some`
does not take the `empty_buffer_read` path (the guard checks only
`iovec_count == 0` or a single zero-sized buffer), `readv` over it
returns 0, and the completion handler reports `eof` — while the
one-zero-buffer and no-buffer shapes report ok, and a genuinely
non-empty sequence reading 0 bytes reports `eof` as specified. -/
theorem c7_zero_length_read_eof_bug :
    (read_some_try [0, 0] (ReadvResult.bytes 0)).map read_out_error
        = some OutErr.eof
    ∧ (read_some_try [0] (ReadvResult.bytes 0)).map read_out_error
        = some OutErr.ok
    ∧ (read_some_try [] (ReadvResult.bytes 0)).map read_out_error
        = some OutErr.ok
    ∧ (read_some_try [8, 8] (ReadvResult.bytes 0)).map read_out_error
        = some OutErr.eof
    ∧ kqueue_op_out_error false 0 true 0 = OutErr.eof := by decide

/-! ## Coroutine frame allocator (`capy/detail/frame_pool.hpp`)

`frame_pool::promise_allocator` prefixes every coroutine frame with a
header recording a deallocation function pointer and the backing
allocator (`ctx`); `operator delete` reads the header back and calls that
function with `size + sizeof(header)` — the same total that was requested
from the backing allocator. -/

/-- Stands for `sizeof(frame_pool::promise_allocator::header)`: one
function pointer plus one context pointer. -/
def headerBytes : Nat := 16

/-- The allocator identity of `frame_pool::shared()`, used by the
plain `operator new` overload. -/
def sharedPoolId : Nat := 0

/-- The header written at the front of the allocation by
`promise_allocator::allocate_with`. -/
structure FrameHeader where
  deallocCtx : Nat
deriving DecidableEq, Repr

/-- One call into a backing allocator: which allocator, and the byte
count passed to its `allocate`/`deallocate`. -/
structure AllocCall where
  allocId : Nat
  bytes : Nat
deriving DecidableEq, Repr

/-- `promise_allocator::allocate_with(size, alloc)`: requests
`size + sizeof(header)` from `alloc`, records the deallocation routine
and `&alloc` in the header, and returns the payload after the header. -/
def allocate_with (size : Nat) (allocId : Nat) : FrameHeader × AllocCall :=
  (⟨allocId⟩, ⟨allocId, size + headerBytes⟩)

/-- `promise_allocator::operator delete(ptr, size)`: steps back to the
header and invokes the recorded function with the recorded allocator
context and `size + sizeof(header)`. -/
def promise_delete (hd : FrameHeader) (size : Nat) : AllocCall :=
  ⟨hd.deallocCtx, size + headerBytes⟩

/-- Allocator selection across the three `operator new` overloads: a
first argument exposing a frame allocator wins, else a second such
argument, else the shared pool. -/
def chooseAllocator (arg0 arg1 : Option Nat) : Nat :=
  match arg0, arg1 with
  | some a, _ => a
  | none, some a => a
  | none, none => sharedPoolId

/-- One completed coroutine: its frame size and the frame-allocator
arguments (if any) visible to the promise's `operator new`. -/
structure FrameCoroutine where
  frameSize : Nat
  arg0 : Option Nat
  arg1 : Option Nat
deriving DecidableEq, Repr

/-- The single allocation a coroutine's frame performs. -/
def frameAllocCall (c : FrameCoroutine) : AllocCall :=
  (allocate_with c.frameSize (chooseAllocator c.arg0 c.arg1)).2

/-- The single deallocation performed when the frame is destroyed: the
compiler passes the same `size` to `operator delete`, which routes
through the header recorded by the matching `allocate_with`. -/
def frameDeallocCall (c : FrameCoroutine) : AllocCall :=
  promise_delete (allocate_with c.frameSize (chooseAllocator c.arg0 c.arg1)).1
    c.frameSize

/-- The allocation ledger of a finite set of completed coroutines. -/
def allocCalls (cs : List FrameCoroutine) : List AllocCall :=
  cs.map frameAllocCall

/-- The deallocation ledger of a finite set of completed coroutines. -/
def deallocCalls (cs : List FrameCoroutine) : List AllocCall :=
  cs.map frameDeallocCall

/-- C8. Over any finite set of completed coroutines, each frame's
deallocation goes through the header's recorded routine to the same
backing allocator with the same total byte count (frame size plus
header), so allocations and deallocations balance per allocator both in
count and in total bytes. -/
theorem c8_frame_alloc_balanced :
    (∀ cs : List FrameCoroutine, deallocCalls cs = allocCalls cs)
    ∧ (∀ (cs : List FrameCoroutine) (a : Nat),
        ((allocCalls cs).filter (fun x => x.allocId = a)).length
          = ((deallocCalls cs).filter (fun x => x.allocId = a)).length)
    ∧ (∀ cs : List FrameCoroutine,
        ((allocCalls cs).map (·.bytes)).sum
          = ((deallocCalls cs).map (·.bytes)).sum)
    ∧ (∀ c : FrameCoroutine,
        frameAllocCall c = ⟨chooseAllocator c.arg0 c.arg1,
          c.frameSize + headerBytes⟩) := by
  have hpt : ∀ c : FrameCoroutine, frameDeallocCall c = frameAllocCall c :=
    fun c => rfl
  have hled : ∀ cs : List FrameCoroutine, deallocCalls cs = allocCalls cs :=
    fun cs => List.map_congr_left fun c _ => hpt c
  exact ⟨hled, fun cs a => by rw [hled], fun cs => by rw [hled],
    fun c => rfl⟩

/-! ## `consuming_buffers` (`boost/corosio/consuming_buffers.hpp`)

The adapter holds an iterator `it_` into the wrapped sequence (modelled
as the remaining suffix) and `consumed_`, the bytes already consumed in
the current buffer.  A buffer is a data pointer plus a size; the pointer
is modelled as a start address so that the byte contents of a sequence
are the covered addresses in order. -/

structure MBuffer where
  data : Nat
  size : Nat
deriving DecidableEq, Repr

structure ConsumingBuffers where
  rest : List MBuffer
  consumed : Nat
deriving DecidableEq, Repr

/-- The `consume(n)` loop: while bytes remain to consume and `it_` has
not reached the end, either stay inside the current buffer (when `n` is
less than its remaining bytes) or consume its remainder, reset
`consumed_` and advance to the next buffer. -/
def consumeFrom (n c : Nat) : List MBuffer → ConsumingBuffers
  | [] => ⟨[], c⟩
  | b :: bs =>
    if n = 0 then ⟨b :: bs, c⟩
    else if n < b.size - c then ⟨b :: bs, c + n⟩
    else consumeFrom (n - (b.size - c)) 0 bs

def ConsumingBuffers.consume (s : ConsumingBuffers) (n : Nat) :
    ConsumingBuffers :=
  consumeFrom n s.consumed s.rest

/-- The buffers yielded by iterating the adapter from a given state: the
first buffer is adjusted for the consumed bytes (`operator*` returns
`{data + consumed_, size - consumed_}`), the following buffers are
yielded whole (`operator++` resets `consumed_` to zero). -/
def yielded : ConsumingBuffers → List MBuffer
  | ⟨[], _⟩ => []
  | ⟨b :: bs, c⟩ => ⟨b.data + c, b.size - c⟩ :: bs

/-- The byte addresses covered by one buffer, in order. -/
def MBuffer.bytes (b : MBuffer) : List Nat :=
  List.range' b.data b.size

/-- The byte addresses covered by a buffer sequence, in order. -/
def flatBytes (bs : List MBuffer) : List Nat :=
  bs.flatMap MBuffer.bytes

/-- `consuming_buffers<...>::const_iterator`, as a position in the
underlying sequence plus the consumed offset; the sequence's end
iterator is position `bufs.length`. -/
structure CBIterator where
  idx : Nat
  consumed : Nat
deriving DecidableEq, Repr

/-- `const_iterator::operator++`: reset `consumed_`, advance `it_`. -/
def CBIterator.incr (it : CBIterator) : CBIterator :=
  ⟨it.idx + 1, 0⟩

/-- `const_iterator::operator--`: with `consumed_ == 0`, step `it_` back
and, unless that lands on the end iterator, set `consumed_` to the full
size of the buffer now referenced; otherwise just reset `consumed_`. -/
def CBIterator.decr (bufs : List MBuffer) (it : CBIterator) : CBIterator :=
  if it.consumed = 0 then
    if it.idx - 1 ≠ bufs.length then
      ⟨it.idx - 1, (((bufs.get? (it.idx - 1)).map (·.size)).getD 0)⟩
    else ⟨it.idx - 1, 0⟩
  else ⟨it.idx, 0⟩

theorem range'_drop_own (i s n : Nat) :
    (List.range' s n).drop i = List.range' (s + i) (n - i) := by
  induction i generalizing s n with
  | zero => simp
  | succ j ih =>
    cases n with
    | zero => simp [List.range']
    | succ m =>
      rw [List.range'_succ, List.drop_succ_cons, ih]
      congr 1 <;> omega

theorem flatBytes_yielded_zero (bs : List MBuffer) :
    flatBytes (yielded ⟨bs, 0⟩) = flatBytes bs := by
  cases bs with
  | nil => rfl
  | cons b rest => simp [yielded, flatBytes]

theorem consume_drop (bs : List MBuffer) :
    ∀ n c, flatBytes (yielded (consumeFrom n c bs))
      = (flatBytes (yielded ⟨bs, c⟩)).drop n := by
  induction bs with
  | nil => intro n c; simp [consumeFrom, yielded, flatBytes]
  | cons b rest ih =>
    intro n c
    by_cases h0 : n = 0
    · simp [consumeFrom, h0]
    · by_cases hlt : n < b.size - c
      · rw [consumeFrom, if_neg h0, if_pos hlt]
        simp only [yielded, flatBytes, List.flatMap_cons, MBuffer.bytes]
        rw [List.drop_append_of_le_length (by simp; omega), range'_drop_own]
        congr 2 <;> omega
      · rw [consumeFrom, if_neg h0, if_neg hlt, ih, flatBytes_yielded_zero]
        simp only [yielded, flatBytes, List.flatMap_cons, MBuffer.bytes]
        conv_rhs => rw [show n = (List.range' (b.data + c) (b.size - c)).length
              + (n - (b.size - c)) from by simp; omega,
          List.drop_append]

/-- C9 counterexample: the iterator is not bidirectional in the C++
named-requirement sense.  Over the sequence of a 2-byte buffer at
address 100 and a 2-byte buffer at address 200, incrementing the
iterator at buffer 0 with 1 byte consumed and then decrementing lands at
buffer 0 with consumed offset 2 (the full size of buffer 0), not back at
the original position, so decrement does not invert increment. -/
theorem c9_bidirectional_counterexample :
    CBIterator.decr [⟨100, 2⟩, ⟨200, 2⟩]
        (CBIterator.incr ⟨0, 1⟩) ≠ (⟨0, 1⟩ : CBIterator) := by decide

/-- C9 amended: `consume(n)` advances the cursor by `n` bytes saturating
at the end of the sequence, and iterating afterwards yields exactly the
remainder of the original byte sequence from the new position — the
first yielded buffer has its data pointer advanced by and its size
reduced by the bytes consumed within it.  The iterator supports
increment and decrement and decrement returns to the previous buffer
(same underlying position), but it re-enters that buffer at its full
size rather than at the prior offset, so it is not a strict inverse of
increment mid-buffer. -/
theorem c9_consuming_buffers :
    (∀ (bs : List MBuffer) (n c : Nat),
        flatBytes (yielded (consumeFrom n c bs))
          = (flatBytes (yielded ⟨bs, c⟩)).drop n)
    ∧ (∀ (s : ConsumingBuffers) (n : Nat),
        flatBytes (yielded (s.consume n)) = (flatBytes (yielded s)).drop n)
    ∧ (∀ (b : MBuffer) (bs : List MBuffer) (c : Nat),
        yielded ⟨b :: bs, c⟩ = ⟨b.data + c, b.size - c⟩ :: bs)
    ∧ (∀ (bufs : List MBuffer) (it : CBIterator), it.idx < bufs.length →
        (CBIterator.decr bufs (CBIterator.incr it)).idx = it.idx) := by
  refine ⟨consume_drop, ?_, fun b bs c => rfl, ?_⟩
  · intro s n
    cases s with
    | mk rest consumed => exact consume_drop rest n consumed
  · intro bufs it hlt
    have h2 : it.idx ≠ bufs.length := by omega
    simp [CBIterator.incr, CBIterator.decr, h2]

/-- Witness for C9 amended: consuming 3 bytes of a 2-byte plus 2-byte
sequence leaves exactly the last byte, and decrement after increment
returns to the same underlying buffer. -/
theorem c9_consuming_buffers_witness :
    flatBytes (yielded (ConsumingBuffers.consume ⟨[⟨100, 2⟩, ⟨200, 2⟩], 0⟩ 3))
        = [201]
    ∧ (CBIterator.decr [⟨100, 2⟩, ⟨200, 2⟩] (CBIterator.incr ⟨0, 1⟩)).idx = 0 := by
  constructor
  · rw [c9_consuming_buffers.2.1 ⟨[⟨100, 2⟩, ⟨200, 2⟩], 0⟩ 3]
    decide
  · exact c9_consuming_buffers.2.2.2 [⟨100, 2⟩, ⟨200, 2⟩] ⟨0, 1⟩ (by decide)

/-! ## The completion versus cancellation race (`detail/kqueue/op.hpp`,
`kqueue_scheduler::do_one`, `kqueue_socket_impl::cancel`)

In the kqueue backend an in-flight op carries `registered : atomic bool`.
The reactor's readiness loop and every cancellation path perform
`registered.exchange(false)`; whoever observes the prior value `true`
claims the op, performs the syscall (readiness path) or the cancel
bookkeeping, and pushes the op to `completed_ops`.  Any interleaving of
atomic exchanges on one location is some sequential order of them, so
the races are modelled as a list of competing paths applied in order. -/

structure OpAtomics where
  registered : Bool
  cancelled : Bool
  posted : Nat
deriving DecidableEq, Repr

/-- `registered.exchange(false, memory_order_acq_rel)`: returns the
prior value and leaves `false` behind. -/
def exchangeFalse (s : OpAtomics) : Bool × OpAtomics :=
  (s.registered, { s with registered := false })

/-- The competing code paths that try to claim one op. -/
inductive ClaimPath where
  | reactorReady
  | stopTokenCancel
  | objectCancel
  | closeSocket
deriving DecidableEq, Repr

/-- One path's effect on the op's atomics.  The readiness loop in
`do_one` exchanges and, as winner, performs the syscall and pushes the
op; each cancellation path exchanges, sets `cancelled` via
`request_cancel()`, and, as winner, deregisters and posts the op.  A
loser performs no syscall and no post. -/
def applyClaim (s : OpAtomics) (p : ClaimPath) : OpAtomics :=
  let was := (exchangeFalse s).1
  let s1 := (exchangeFalse s).2
  match p with
  | .reactorReady =>
      if was then { s1 with posted := s1.posted + 1 } else s1
  | .stopTokenCancel | .objectCancel | .closeSocket =>
      let s2 := { s1 with cancelled := true }
      if was then { s2 with posted := s2.posted + 1 } else s2

/-- An arbitrary interleaving of claim attempts, applied in order. -/
def runClaims (s : OpAtomics) (ps : List ClaimPath) : OpAtomics :=
  ps.foldl applyClaim s

theorem applyClaim_loser (s : OpAtomics) (p : ClaimPath)
    (h : s.registered = false) :
    (applyClaim s p).posted = s.posted
      ∧ (applyClaim s p).registered = false := by
  cases p <;> simp [applyClaim, exchangeFalse, h]

theorem runClaims_unregistered (ps : List ClaimPath) :
    ∀ s : OpAtomics, s.registered = false →
      (runClaims s ps).posted = s.posted := by
  induction ps with
  | nil => intro s _; rfl
  | cons p rest ih =>
    intro s h
    have h1 := applyClaim_loser s p h
    calc (runClaims (applyClaim s p) rest).posted
        = (applyClaim s p).posted := ih _ h1.2
      _ = s.posted := h1.1

theorem applyClaim_winner (s : OpAtomics) (p : ClaimPath)
    (h : s.registered = true) :
    (applyClaim s p).posted = s.posted + 1
      ∧ (applyClaim s p).registered = false := by
  cases p <;> simp [applyClaim, exchangeFalse, h]

/-- C2. For an op whose `registered` atomic holds the registered value,
any nonempty interleaving of the reactor readiness path and cancellation
paths posts the op exactly once: the first exchange wins and every later
path observes `false` and does nothing; if the op is not registered, no
path posts it at all. -/
theorem c2_exactly_one_completion
    (s : OpAtomics) (p : ClaimPath) (ps : List ClaimPath)
    (hreg : s.registered = true) :
    (runClaims s (p :: ps)).posted = s.posted + 1
    ∧ (∀ s2 : OpAtomics, s2.registered = false →
        (runClaims s2 (p :: ps)).posted = s2.posted) := by
  constructor
  · have h1 := applyClaim_winner s p hreg
    show (runClaims (applyClaim s p) ps).posted = s.posted + 1
    rw [runClaims_unregistered ps _ h1.2, h1.1]
  · intro s2 h2
    exact runClaims_unregistered (p :: ps) s2 h2

/-- Witness for C2: a registered op claimed first by the reactor and then
by `cancel()` is posted exactly once, and an unregistered op is never
posted by these paths. -/
theorem c2_exactly_one_completion_witness :
    (runClaims ⟨true, false, 0⟩
        [ClaimPath.reactorReady, ClaimPath.objectCancel]).posted = 0 + 1
    ∧ (∀ s2 : OpAtomics, s2.registered = false →
        (runClaims s2
          [ClaimPath.reactorReady, ClaimPath.objectCancel]).posted
            = s2.posted) :=
  c2_exactly_one_completion ⟨true, false, 0⟩ ClaimPath.reactorReady
    [ClaimPath.objectCancel] rfl

/-! ## Keep-alive installation and release ordering

`kqueue_socket_impl::cancel` installs `op.impl_ptr = self` after winning
the claim and before `svc_.post(&op)`.  `kqueue_op::operator()` saves
the dispatcher and handle to locals, resets `impl_ptr`, and only then
dispatches and resumes the coroutine. -/

inductive OpEvent where
  | exchangeRegistered
  | requestCancel
  | unregisterFd
  | installKeepAlive
  | postToScheduler
  | workFinished
  | releaseStopCb
  | writeOutError
  | writeBytesOut
  | clearKeepAlive
  | dispatchResume
deriving DecidableEq, Repr

/-- Whether `a` occurs (first) strictly before `b` occurs (first) in the
trace. -/
def listBefore {α : Type} [DecidableEq α] (tr : List α) (a b : α) : Bool :=
  match tr.findIdx? (· = a), tr.findIdx? (· = b) with
  | some i, some j => decide (i < j)
  | _, _ => false

/-- The per-op body of `kqueue_socket_impl::cancel` (the `cancel_op`
lambda), given the value the exchange observed. -/
def cancel_op_events (wasRegistered : Bool) : List OpEvent :=
  [.exchangeRegistered, .requestCancel] ++
    (if wasRegistered then
      [.unregisterFd, .installKeepAlive, .postToScheduler, .workFinished]
     else [])

/-- The body of `kqueue_op::operator()` in event order. -/
def op_invoke_events : List OpEvent :=
  [.releaseStopCb, .writeOutError, .writeBytesOut, .clearKeepAlive,
   .dispatchResume]

/-- C4 counterexample: in `kqueue_op::operator()` the keep-alive
`impl_ptr` is cleared and only afterwards is the coroutine resumed
through the captured dispatcher, so the claim's "clears that keep-alive
after resuming the coroutine" is false of the code. -/
theorem c4_clear_after_resume_counterexample :
    ¬ (listBefore op_invoke_events OpEvent.dispatchResume
        OpEvent.clearKeepAlive = true) := by decide

/-- C4 amended: on every claiming cancellation path the keep-alive
reference to the impl is installed in the op before the op is posted to
the scheduler, a losing path posts nothing, and the op's `operator()`
clears the keep-alive after saving the handle and dispatcher to locals
and immediately before (not after) resuming the coroutine through the
captured dispatcher. -/
theorem c4_keepalive_order :
    listBefore (cancel_op_events true) OpEvent.installKeepAlive
        OpEvent.postToScheduler = true
    ∧ OpEvent.postToScheduler ∉ cancel_op_events false
    ∧ OpEvent.installKeepAlive ∉ cancel_op_events false
    ∧ OpEvent.clearKeepAlive ∈ op_invoke_events
    ∧ listBefore op_invoke_events OpEvent.clearKeepAlive
        OpEvent.dispatchResume = true
    ∧ listBefore op_invoke_events OpEvent.releaseStopCb
        OpEvent.clearKeepAlive = true := by decide

/-! ## Registration handshake on EAGAIN (`detail/select/*.cpp` versus
the kqueue and epoll backends)

The select backend gives each op a three-state atomic
`registered : unregistered | registering | registered` and runs a CAS
handshake on the EAGAIN path; the kqueue backend's `registered`, and
likewise the `registered` of the epoll sockets backend selected by
`BOOST_COROSIO_BACKEND_EPOLL` (`epoll_socket_impl` /
`epoll_acceptor_impl`), is a two-state atomic bool written with a plain
store. -/

inductive RegState where
  | unregistered
  | registering
  | registered
deriving DecidableEq, Repr

/-- The observable actions of a start path's registration handshake. -/
inductive RegAction where
  | workStarted
  | storeState (v : RegState)
  | reactorRegister
  | casRegisteringToRegistered (success : Bool)
  | exchangeToUnregistered
  | reactorDeregister
  | installKeepAlive
  | postOp
  | workFinished
deriving DecidableEq, Repr

/-- The EAGAIN/EWOULDBLOCK/EINPROGRESS continuation shared by
`select_socket_impl::{connect, read_some, write_some}` and
`select_acceptor_impl::accept`: increment the work counter, store
`registering`, register the fd with the reactor, CAS
`registering → registered`; on CAS failure deregister the fd and stop;
on success, if `cancelled` is already set, exchange to `unregistered`
and, when that claim wins, deregister, install the keep-alive, post the
op and release the work unit. -/
def select_eagain_actions (casOk cancelledSeen claimWon : Bool) :
    List RegAction :=
  [.workStarted, .storeState .registering, .reactorRegister,
   .casRegisteringToRegistered casOk] ++
  if casOk then
    if cancelledSeen then
      .exchangeToUnregistered ::
        (if claimWon then
          [.reactorDeregister, .installKeepAlive, .postOp, .workFinished]
         else [])
    else []
  else [.reactorDeregister]

/-- The EAGAIN/EWOULDBLOCK continuation of
`kqueue_socket_impl::read_some` (and `write_some`, `connect`,
`kqueue_acceptor_impl::accept`): increment the work counter, store the
boolean `registered = true` — modelled as storing the `registered`
state — and register the fd; there is no `registering` state, no CAS,
and no deregister on this path. -/
def kqueue_eagain_actions : List RegAction :=
  [.workStarted, .storeState .registered, .reactorRegister]

/-- The EAGAIN/EWOULDBLOCK/EINPROGRESS continuation of the epoll
backend compiled under `BOOST_COROSIO_BACKEND_EPOLL`
(`epoll_socket_impl::{connect, read_some, write_some}` and
`epoll_acceptor_impl::accept`): like the kqueue backend, it increments
the work counter, stores the boolean `registered = true` with a plain
store, and registers the fd; no `registering` state, no CAS, no
deregister on this path. -/
def epoll_eagain_actions : List RegAction :=
  [.workStarted, .storeState .registered, .reactorRegister]

/-- The protocol C3 claims of every backend's start path: the work
counter is incremented, `registered` is set to the `registering` state,
the reactor's register is called, a CAS `registering → registered` is
attempted, and a thread observing the CAS fail calls the reactor's
deregister. -/
def followsThreeStateStart (tr : List RegAction) : Prop :=
  RegAction.workStarted ∈ tr
  ∧ RegAction.storeState .registering ∈ tr
  ∧ RegAction.reactorRegister ∈ tr
  ∧ (RegAction.casRegisteringToRegistered true ∈ tr
      ∨ RegAction.casRegisteringToRegistered false ∈ tr)
  ∧ (RegAction.casRegisteringToRegistered false ∈ tr →
      RegAction.reactorDeregister ∈ tr)

/-- C3 counterexample: the kqueue backend's EAGAIN path never stores a
`registering` state and performs no CAS at all, so the claimed
three-state handshake is false of the kqueue read/write/connect/accept
start paths. -/
theorem c3_kqueue_no_three_state :
    ¬ followsThreeStateStart kqueue_eagain_actions := by
  unfold followsThreeStateStart
  decide

/-- C3 amended: in the select backend every async
read/write/connect/accept start path that sees
EAGAIN/EWOULDBLOCK/EINPROGRESS increments the scheduler's work counter,
stores `registering` into the three-state `registered` atomic before
calling the reactor's register, then CASes `registering → registered`
after it, and a thread that observes the CAS failing deregisters the fd;
the kqueue backend and the epoll backend compiled under
`BOOST_COROSIO_BACKEND_EPOLL` instead use a two-state boolean
`registered`, written with a plain store before registering, with no
CAS and no deregister on the start path. -/
theorem c3_registration_protocol :
    (∀ casOk cancelledSeen claimWon : Bool,
        followsThreeStateStart
          (select_eagain_actions casOk cancelledSeen claimWon))
    ∧ (∀ cancelledSeen claimWon : Bool,
        listBefore (select_eagain_actions true cancelledSeen claimWon)
            RegAction.workStarted (RegAction.storeState .registering) = true
        ∧ listBefore (select_eagain_actions true cancelledSeen claimWon)
            (RegAction.storeState .registering) RegAction.reactorRegister = true
        ∧ listBefore (select_eagain_actions true cancelledSeen claimWon)
            RegAction.reactorRegister
            (RegAction.casRegisteringToRegistered true) = true)
    ∧ (∀ cancelledSeen claimWon : Bool,
        listBefore (select_eagain_actions false cancelledSeen claimWon)
            (RegAction.casRegisteringToRegistered false)
            RegAction.reactorDeregister = true)
    ∧ RegAction.storeState RegState.registering ∉ kqueue_eagain_actions
    ∧ RegAction.casRegisteringToRegistered true ∉ kqueue_eagain_actions
    ∧ RegAction.casRegisteringToRegistered false ∉ kqueue_eagain_actions
    ∧ kqueue_eagain_actions
        = [.workStarted, .storeState .registered, .reactorRegister]
    ∧ ¬ followsThreeStateStart epoll_eagain_actions
    ∧ RegAction.storeState RegState.registering ∉ epoll_eagain_actions
    ∧ RegAction.casRegisteringToRegistered true ∉ epoll_eagain_actions
    ∧ RegAction.casRegisteringToRegistered false ∉ epoll_eagain_actions
    ∧ epoll_eagain_actions
        = [.workStarted, .storeState .registered, .reactorRegister] := by
  refine ⟨?_, ?_, ?_, ?_, ?_, ?_, rfl, ?_, ?_, ?_, ?_, rfl⟩
  · intro a b c
    unfold followsThreeStateStart
    cases a <;> cases b <;> cases c <;> decide
  · intro b c; cases b <;> cases c <;> decide
  · intro b c; cases b <;> cases c <;> decide
  · decide
  · decide
  · decide
  · unfold followsThreeStateStart
    decide
  · decide
  · decide
  · decide

/-! ## The kqueue scheduler event loop (`kqueue_scheduler` in the kqueue
backend translation unit)

Scheduler state is the `stopped` atomic flag, the `outstanding_work`
counter and the `completed_ops` queue.  A handler popped from the queue
runs arbitrary code; the handler bodies relevant to work accounting are
modelled as a small syntax (do nothing, post more handlers, call
`stop()`).  Blocking in `kevent` consumes one `Wake` from an environment
script: the ops the readiness loop claims and pushes (already counted in
`outstanding_work` when they registered) and whether a concurrent
`stop()` happened.  An exhausted script while blocked models an event
loop that stays blocked, returning `none`. -/

inductive Handler where
  | plain
  | postsWork (k : Nat)
  | callsStop
deriving DecidableEq, Repr

structure SchedState where
  stopped : Bool
  work : Nat
  queue : List Handler
deriving DecidableEq, Repr

/-- `kqueue_scheduler::stop()`: latch the stopped flag (and wake the
reactor). -/
def SchedState.stop (s : SchedState) : SchedState :=
  { s with stopped := true }

/-- `kqueue_scheduler::restart()`: clear the stopped flag. -/
def SchedState.restart (s : SchedState) : SchedState :=
  { s with stopped := false }

/-- `kqueue_scheduler::post`: increment `outstanding_work`, push the
handler onto `completed_ops`, wake the reactor. -/
def SchedState.post (s : SchedState) (h : Handler) : SchedState :=
  { s with work := s.work + 1, queue := s.queue ++ [h] }

/-- `kqueue_scheduler::on_work_started()`. -/
def SchedState.onWorkStarted (s : SchedState) : SchedState :=
  { s with work := s.work + 1 }

/-- `kqueue_scheduler::on_work_finished()`: `fetch_sub` returns the
prior value; when the counter drops from 1 to 0 the scheduler invokes
`stop()`. -/
def SchedState.onWorkFinished (s : SchedState) : SchedState :=
  if s.work = 1 then SchedState.stop { s with work := s.work - 1 }
  else { s with work := s.work - 1 }

/-- The body of one executed handler (`(*h)()`). -/
def execHandler (h : Handler) (s : SchedState) : SchedState :=
  match h with
  | .plain => s
  | .postsWork k =>
      { s with work := s.work + k, queue := s.queue ++ List.replicate k .plain }
  | .callsStop => s.stop

/-- The `work_guard` in `do_one`: `work_finished()` is the plain
decrement (it does not invoke `stop`). -/
def workGuardFinish (s : SchedState) : SchedState :=
  { s with work := s.work - 1 }

/-- What one return from `kevent` delivers: the ops the readiness loop
claims and pushes to `completed_ops` (including expired timer handlers),
and whether a concurrent `stop()` was latched while blocked. -/
structure Wake where
  claimed : List Handler
  stopSet : Bool
deriving DecidableEq, Repr

/-- `kqueue_scheduler::do_one(timeout_us)`.  `blocking` is
`timeout_us < 0`.  Per iteration: return 0 when stopped; pop and execute
one completed op (returning 1, the work guard decrementing the
counter); return 0 when `outstanding_work` is 0; otherwise block in
`kevent` for the next wake, push the claimed ops, re-check `stopped`,
pop-and-execute, and loop only in blocking mode. -/
def do_one (blocking : Bool) : List Wake → SchedState →
    Option (Nat × SchedState × List Wake)
  | script, s =>
    if s.stopped then some (0, s, script)
    else
      match s.queue with
      | h :: rest =>
          some (1, workGuardFinish (execHandler h { s with queue := rest }),
            script)
      | [] =>
        if s.work = 0 then some (0, s, script)
        else
          match script with
          | [] => none
          | w :: ws =>
            if s.stopped || w.stopSet then
              some (0, ⟨s.stopped || w.stopSet, s.work, w.claimed⟩, ws)
            else
              match w.claimed with
              | h2 :: rest2 =>
                  some (1, workGuardFinish (execHandler h2
                    ⟨s.stopped || w.stopSet, s.work, rest2⟩), ws)
              | [] =>
                if blocking then
                  do_one blocking ws ⟨s.stopped || w.stopSet, s.work, w.claimed⟩
                else some (0, ⟨s.stopped || w.stopSet, s.work, w.claimed⟩, ws)

/-- The `while (do_one(...))` loop shared by `run()` and `poll()`,
counting completed handlers.  `fuel` bounds the number of iterations we
unfold; `none` means the loop had not returned within `fuel`
iterations (or stayed blocked on an exhausted script). -/
def runLoop (blocking : Bool) : Nat → SchedState → List Wake → Nat →
    Option (Nat × SchedState)
  | 0, _, _, _ => none
  | fuel + 1, s, script, n =>
    match do_one blocking script s with
    | none => none
    | some (0, s1, _) => some (n, s1)
    | some (_ + 1, s1, script1) => runLoop blocking fuel s1 script1 (n + 1)

/-- `kqueue_scheduler::run()`: return 0 if stopped; if no outstanding
work, `stop()` and return 0; otherwise loop `do_one(-1)`. -/
def SchedState.run (fuel : Nat) (s : SchedState) (script : List Wake) :
    Option (Nat × SchedState) :=
  if s.stopped then some (0, s)
  else if s.work = 0 then some (0, s.stop)
  else runLoop true fuel s script 0

/-- `kqueue_scheduler::run_one()`: same entry checks, then one
`do_one(-1)`. -/
def SchedState.run_one (s : SchedState) (script : List Wake) :
    Option (Nat × SchedState) :=
  if s.stopped then some (0, s)
  else if s.work = 0 then some (0, s.stop)
  else (do_one true script s).map fun r => (r.1, r.2.1)

/-- `kqueue_scheduler::wait_one(usec)` with `usec ≥ 0`: same entry
checks, then one bounded `do_one(usec)`. -/
def SchedState.wait_one (s : SchedState) (script : List Wake) :
    Option (Nat × SchedState) :=
  if s.stopped then some (0, s)
  else if s.work = 0 then some (0, s.stop)
  else (do_one false script s).map fun r => (r.1, r.2.1)

/-- `kqueue_scheduler::poll()`: same entry checks, then loop
`do_one(0)`. -/
def SchedState.poll (fuel : Nat) (s : SchedState) (script : List Wake) :
    Option (Nat × SchedState) :=
  if s.stopped then some (0, s)
  else if s.work = 0 then some (0, s.stop)
  else runLoop false fuel s script 0

/-- `kqueue_scheduler::poll_one()`: same entry checks, then one
`do_one(0)`. -/
def SchedState.poll_one (s : SchedState) (script : List Wake) :
    Option (Nat × SchedState) :=
  if s.stopped then some (0, s)
  else if s.work = 0 then some (0, s.stop)
  else (do_one false script s).map fun r => (r.1, r.2.1)

theorem do_one_blocking_ret0 :
    ∀ (script : List Wake) (s t : SchedState) (scr : List Wake),
      do_one true script s = some (0, t, scr) →
      t.stopped = true ∨ t.work = 0 := by
  intro script
  induction script with
  | nil =>
    intro s t scr h
    obtain ⟨st, wk, q⟩ := s
    rw [do_one] at h
    cases st with
    | true =>
      simp at h
      obtain ⟨rfl, rfl⟩ := h
      exact Or.inl rfl
    | false =>
      cases q with
      | cons hh rest => simp at h
      | nil =>
        rcases Nat.eq_zero_or_pos wk with rfl | hw
        · simp at h
          obtain ⟨rfl, rfl⟩ := h
          exact Or.inr rfl
        · have hw2 : wk ≠ 0 := by omega
          simp [hw2] at h
  | cons w ws ih =>
    intro s t scr h
    obtain ⟨st, wk, q⟩ := s
    obtain ⟨cl, sset⟩ := w
    rw [do_one] at h
    cases st with
    | true =>
      simp at h
      obtain ⟨rfl, rfl⟩ := h
      exact Or.inl rfl
    | false =>
      cases q with
      | cons hh rest => simp at h
      | nil =>
        rcases Nat.eq_zero_or_pos wk with rfl | hw
        · simp at h
          obtain ⟨rfl, rfl⟩ := h
          exact Or.inr rfl
        · have hw2 : wk ≠ 0 := by omega
          cases sset with
          | true =>
            simp [hw2] at h
            obtain ⟨rfl, rfl⟩ := h
            exact Or.inl rfl
          | false =>
            cases cl with
            | cons h2 rest2 => simp [hw2] at h
            | nil =>
              simp [hw2] at h
              exact ih _ _ _ h

theorem runLoop_ret (fuel : Nat) :
    ∀ (s : SchedState) (script : List Wake) (n m : Nat) (t : SchedState),
      runLoop true fuel s script n = some (m, t) →
      t.stopped = true ∨ t.work = 0 := by
  induction fuel with
  | zero => intro s script n m t h; simp [runLoop] at h
  | succ f ih =>
    intro s script n m t h
    rw [runLoop] at h
    cases hdo : do_one true script s with
    | none => rw [hdo] at h; simp at h
    | some r =>
      obtain ⟨k, s2, script2⟩ := r
      rw [hdo] at h
      cases k with
      | zero =>
        simp at h
        obtain ⟨rfl, rfl⟩ := h
        exact do_one_blocking_ret0 script s _ script2 hdo
      | succ k2 =>
        exact ih _ _ _ _ _ h

/-- C1. `run()` returns 0 immediately when the scheduler is stopped at
entry; it returns 0 immediately (latching `stop()`) when
`outstanding_work` is 0 at entry; and whenever `run()` returns — after
repeatedly executing ready handlers and blocking in the reactor — the
state at return satisfies stopped-or-no-outstanding-work, for every
entry state, every reactor script and every fuel bound. -/
theorem c1_run_returns_iff :
    (∀ (s : SchedState) (script : List Wake) (fuel : Nat),
        s.stopped = true → s.run fuel script = some (0, s))
    ∧ (∀ (s : SchedState) (script : List Wake) (fuel : Nat),
        s.stopped = false → s.work = 0 →
        s.run fuel script = some (0, s.stop))
    ∧ (∀ (fuel : Nat) (s : SchedState) (script : List Wake)
          (n : Nat) (s1 : SchedState),
        s.run fuel script = some (n, s1) →
        s1.stopped = true ∨ s1.work = 0) := by
  refine ⟨?_, ?_, ?_⟩
  · intro s script fuel hst
    simp [SchedState.run, hst]
  · intro s script fuel hst hw
    simp [SchedState.run, hst, hw]
  · intro fuel s script n s1 h
    simp only [SchedState.run] at h
    split at h
    · rename_i hst
      cases h
      exact Or.inl hst
    · split at h
      · rename_i hw
        cases h
        exact Or.inl rfl
      · exact runLoop_ret fuel s script 0 n s1 h

/-- Witness for C1: a stopped scheduler returns 0 unchanged; an idle
scheduler (no outstanding work) returns 0 and latches stop; and a run
that executes one posted handler and then finds the counter at zero
returns in a state with no outstanding work. -/
theorem c1_run_returns_iff_witness :
    SchedState.run 5 ⟨true, 3, []⟩ [] = some (0, ⟨true, 3, []⟩)
    ∧ SchedState.run 5 ⟨false, 0, []⟩ [] = some (0, ⟨true, 0, []⟩)
    ∧ (SchedState.run 5 ⟨false, 1, [Handler.plain]⟩ []
          = some (1, ⟨false, 0, []⟩) →
        (⟨false, 0, []⟩ : SchedState).stopped = true
          ∨ (⟨false, 0, []⟩ : SchedState).work = 0) := by
  refine ⟨?_, ?_, ?_⟩
  · exact c1_run_returns_iff.1 ⟨true, 3, []⟩ [] 5 rfl
  · exact c1_run_returns_iff.2.1 ⟨false, 0, []⟩ [] 5 rfl rfl
  · exact c1_run_returns_iff.2.2 5 ⟨false, 1, [Handler.plain]⟩ [] 1 ⟨false, 0, []⟩

/-- C10. Whenever `outstanding_work` is observed at zero — at entry to
`run()`, `run_one()`, `wait_one()`, `poll()` or `poll_one()`, or by the
decrement in `on_work_finished()` dropping the counter from 1 to 0 — the
scheduler invokes `stop()` and latches the stopped flag (a decrement
from a higher value does not); once stopped, every run-family call
returns 0 with the state unchanged, until `restart()` clears the
flag. -/
theorem c10_work_zero_latches_stop :
    (∀ (s : SchedState) (script : List Wake) (fuel : Nat),
        s.stopped = false → s.work = 0 →
        s.run fuel script = some (0, s.stop)
        ∧ s.run_one script = some (0, s.stop)
        ∧ s.wait_one script = some (0, s.stop)
        ∧ s.poll fuel script = some (0, s.stop)
        ∧ s.poll_one script = some (0, s.stop)
        ∧ (s.stop).stopped = true)
    ∧ (∀ s : SchedState, s.work = 1 →
        (s.onWorkFinished).stopped = true ∧ (s.onWorkFinished).work = 0)
    ∧ (∀ s : SchedState, 2 ≤ s.work →
        (s.onWorkFinished).stopped = s.stopped
          ∧ (s.onWorkFinished).work = s.work - 1)
    ∧ (∀ (s : SchedState) (script : List Wake) (fuel : Nat),
        s.stopped = true →
        s.run fuel script = some (0, s)
        ∧ s.run_one script = some (0, s)
        ∧ s.wait_one script = some (0, s)
        ∧ s.poll fuel script = some (0, s)
        ∧ s.poll_one script = some (0, s))
    ∧ (∀ s : SchedState, (s.restart).stopped = false) := by
  refine ⟨?_, ?_, ?_, ?_, ?_⟩
  · intro s script fuel hst hw
    refine ⟨?_, ?_, ?_, ?_, ?_, rfl⟩ <;>
      simp [SchedState.run, SchedState.run_one, SchedState.wait_one,
        SchedState.poll, SchedState.poll_one, hst, hw]
  · intro s hw
    simp [SchedState.onWorkFinished, SchedState.stop, hw]
  · intro s hw
    have h1 : s.work ≠ 1 := by omega
    simp [SchedState.onWorkFinished, h1]
  · intro s script fuel hst
    refine ⟨?_, ?_, ?_, ?_, ?_⟩ <;>
      simp [SchedState.run, SchedState.run_one, SchedState.wait_one,
        SchedState.poll, SchedState.poll_one, hst]
  · intro s
    simp [SchedState.restart]

/-- Witness for C10 at concrete states: an idle scheduler latches stop
through each entry point, a final `on_work_finished` latches stop, a
non-final one only decrements, a stopped scheduler's run-family calls
return 0 unchanged, and `restart` clears the flag. -/
theorem c10_work_zero_latches_stop_witness :
    SchedState.run 4 ⟨false, 0, []⟩ [] = some (0, SchedState.stop ⟨false, 0, []⟩)
    ∧ (SchedState.onWorkFinished ⟨false, 1, []⟩).stopped = true
    ∧ (SchedState.onWorkFinished ⟨false, 2, []⟩).stopped = false
    ∧ SchedState.poll_one ⟨true, 7, [Handler.plain]⟩ [] = some (0, ⟨true, 7, [Handler.plain]⟩)
    ∧ (SchedState.restart ⟨true, 7, []⟩).stopped = false := by
  refine ⟨?_, ?_, ?_, ?_, ?_⟩
  · exact (c10_work_zero_latches_stop.1 ⟨false, 0, []⟩ [] 4 rfl rfl).1
  · exact (c10_work_zero_latches_stop.2.1 ⟨false, 1, []⟩ rfl).1
  · exact (c10_work_zero_latches_stop.2.2.1 ⟨false, 2, []⟩ (by decide)).1
  · exact (c10_work_zero_latches_stop.2.2.2.1 ⟨true, 7, [Handler.plain]⟩ [] 0 rfl).2.2.2.2
  · exact c10_work_zero_latches_stop.2.2.2.2 ⟨true, 7, []⟩

/-- Witness for C6 at concrete inputs: a registry holding one service of
concrete type 5 (ids are arbitrary tags) rejects a second `make` under
type 5, under key type 5, after a `use`, and after a successful `make`. -/
theorem c6_make_service_uniqueness_witness :
    make_service 5 none 9 [⟨1, 5, 5⟩] [] = .alreadyExists
    ∧ make_service 7 (some 5) 9 [⟨1, 6, 5⟩] [] = .alreadyExists
    ∧ make_service 5 none 9 ((use_service 5 none 1 []).2) [] = .alreadyExists
    ∧ make_service 5 none 9 (⟨1, 5, 5⟩ :: ([] ++ [])) [] = .alreadyExists := by
  refine ⟨?_, ?_, ?_, ?_⟩
  · exact c6_make_service_uniqueness.1 5 none 9 [⟨1, 5, 5⟩] [] ⟨1, 5, 5⟩
      (by decide) (Or.inl rfl)
  · exact c6_make_service_uniqueness.2.1 7 5 9 [⟨1, 6, 5⟩] [] ⟨1, 6, 5⟩
      (by decide) (Or.inr rfl)
  · exact c6_make_service_uniqueness.2.2.1 5 none none 1 9 [] []
  · exact c6_make_service_uniqueness.2.2.2 5 none 1 [] [] ⟨1, 5, 5⟩
      (⟨1, 5, 5⟩ :: ([] ++ [])) none 9 [] (by decide)

end Corosio
